import Mathlib

/-!
Verification of the Secure Transport TLS wrapper (`oscrypto/_osx/tls.py`).

The Python module is shallowly embedded below: byte strings become
`List Nat`, the Secure Transport status constants become the inductive
`SecStatus`, socket errors become `SockErr`, and the stateful methods of
`TLSSocket` become pure functions over an explicit `TLSState` record.
External collaborators (the native engine, the raw-handshake-record
parsers `detect_client_auth_request` / `detect_other_protocol` /
`get_dh_params_length`, and the cipher-suite name table) are abstracted
as explicit function parameters, mirroring the module's imports.
-/

set_option autoImplicit false

namespace OscTLS

/-- Socket `errno` values distinguished by the callbacks: `EAGAIN`,
`ECONNRESET`, and everything else. -/
inductive SockErr
  | eagain
  | econnreset
  | other
deriving DecidableEq

/-- The Secure Transport status codes the module inspects
(`SecurityConst.errSSL*`; `success` is the zero status). -/
inductive SecStatus
  | success
  | wouldBlock
  | closedNoNotify
  | closedAbort
  | closedGraceful
  | recordOverflow
  | protocolErr
  | peerHandshakeFail
  | weakPeerEphemeralDHKey
  | serverAuthCompleted
  | xCertChainInvalid
  | certExpired
  | certNotYetValid
  | unknownRootCert
  | noRootCert
  | hostNameMismatch
deriving DecidableEq

/-- One outcome of a `socket.recv` call inside `_read_callback`: either a
chunk of data (possibly empty, signalling end of stream) or a raised
`socket.error` with the given `errno`. -/
inductive RecvStep
  | data (bs : List Nat)
  | err (e : SockErr)
deriving DecidableEq

/-- The recv loop of `_read_callback` (lines 120-129): keep receiving until
`bytes_requested` bytes are collected; an empty chunk on a blocking socket
is an early graceful close when nothing was collected, otherwise the loop
breaks; a raised socket error ends the loop with its `errno`.  The `steps`
list enumerates the successive `recv` outcomes the socket produces during
this invocation.  Returns (collected data, optional errno, whether the
early `errSSLClosedNoNotify` return fired). -/
def recvLoop (blocking : Bool) (bytes_requested : Nat) (acc : List Nat) :
    List RecvStep → List Nat × Option SockErr × Bool
  | [] => (acc, none, false)
  | step :: rest =>
    if acc.length < bytes_requested then
      match step with
      | RecvStep.err e => (acc, some e, false)
      | RecvStep.data bs =>
        let acc2 := acc ++ bs
        if bs = [] ∧ blocking then
          if acc2.length = 0 then (acc2, none, true) else (acc2, none, false)
        else
          recvLoop blocking bytes_requested acc2 rest
    else
      (acc, none, false)

/-- Result of one `_read_callback` invocation: the returned status, the
bytes written to the engine's buffer, and the updated server-hello
capture. -/
structure ReadCbResult where
  status : SecStatus
  delivered : List Nat
  server_hello : List Nat
deriving DecidableEq

/-- Tail of `_read_callback` (lines 136-145): append the collected data to
the server-hello capture while the handshake is not done, then report
`errSSLWouldBlock` on a short read and success otherwise. -/
def finishRead (self_present done : Bool) (server_hello data : List Nat)
    (bytes_requested : Nat) : ReadCbResult :=
  let sh := if self_present && !done then server_hello ++ data else server_hello
  if data.length ≠ bytes_requested then
    ⟨SecStatus.wouldBlock, data, sh⟩
  else
    ⟨SecStatus.success, data, sh⟩

/-- `_read_callback` (lines 89-145).  `self_present` models whether the
weak reference to the `TLSSocket` is still alive; `done` is its
`_done_handshake` flag; `server_hello` its capture buffer. -/
def readCallback (self_present done : Bool) (server_hello : List Nat)
    (steps : List RecvStep) (blocking : Bool) (bytes_requested : Nat) :
    ReadCbResult :=
  let r := recvLoop blocking bytes_requested [] steps
  let data := r.1
  let error := r.2.1
  let earlyClose := r.2.2
  if earlyClose then
    ⟨SecStatus.closedNoNotify, [], server_hello⟩
  else
    match error with
    | some e =>
      if e = SockErr.eagain then
        finishRead self_present done server_hello data bytes_requested
      else if e = SockErr.econnreset then
        ⟨SecStatus.closedNoNotify, [], server_hello⟩
      else
        ⟨SecStatus.closedAbort, [], server_hello⟩
    | none => finishRead self_present done server_hello data bytes_requested

/-- Result of one `_write_callback` invocation: returned status, the
length reported back through `data_length_pointer`, and the updated
client-hello capture. -/
structure WriteCbResult where
  status : SecStatus
  reported_length : Nat
  client_hello : List Nat
deriving DecidableEq

/-- `_write_callback` (lines 172-220).  `sendOutcome` is the result of
`socket.send(data)`: either the count of bytes sent or a raised
`socket.error`.  The function returns `none` exactly when the Python code
reaches the comparison `sent != data_length` with the local variable
`sent` never having been assigned (the `errno.EAGAIN` exception path),
which in Python raises `NameError` instead of returning a status. -/
def writeCallback (self_present done : Bool) (client_hello data : List Nat)
    (sendOutcome : Except SockErr Nat) : Option WriteCbResult :=
  let ch := if self_present && !done then client_hello ++ data else client_hello
  match sendOutcome with
  | Except.error e =>
    if e = SockErr.eagain then
      none
    else if e = SockErr.econnreset then
      some ⟨SecStatus.closedNoNotify, data.length, ch⟩
    else
      some ⟨SecStatus.closedAbort, data.length, ch⟩
  | Except.ok sent =>
    if sent ≠ data.length then
      some ⟨SecStatus.wouldBlock, sent, ch⟩
    else
      some ⟨SecStatus.success, data.length, ch⟩

/-- A certificate as far as the error classifier inspects it: the leaf's
signature hash algorithm (`chain[0].hash_algo`) and whether
`load_certificate(cert).self_signed` holds. -/
structure Cert where
  hash_algo : String
  self_signed : Bool
deriving DecidableEq

/-- The low-level CSSM result codes read via `SecTrustGetCssmResultCode`
that the classifier compares against (`SecurityConst.CSSMERR_*`), plus a
catch-all for every other value. -/
inductive CssmCode
  | notTrusted
  | certExpired
  | certNotYetValid
  | hostnameMismatch
  | otherCode
deriving DecidableEq

/-- The error raised by the chain-invalid classifier, one constructor per
`raise_*` helper invoked on lines 698-716. -/
inductive ChainInvalidError
  | weakSignature (c : Cert)
  | hostname (c : Cert)
  | expiredNotYetValid (c : Cert)
  | noIssuer (c : Cert)
  | selfSigned (c : Cert)
  | clientAuth
  | verification (c : Option Cert)
deriving DecidableEq

/-- The chain-invalid-family error classifier of `TLSSocket._handshake`
(lines 667-716): `chain` is `extract_chain(self._server_hello)`,
`result_code` the CSSM code from the peer trust object, and `clientAuth`
the value of `detect_client_auth_request(self._server_hello)`.  The first
`raise_*` reached in the source is the constructor returned here. -/
def classifyChainInvalid (chain : List Cert) (result_code : CssmCode)
    (clientAuth : Bool) : ChainInvalidError :=
  match chain with
  | [] =>
    if clientAuth then ChainInvalidError.clientAuth
    else ChainInvalidError.verification none
  | leaf :: _ =>
    if leaf.hash_algo = "md5" ∨ leaf.hash_algo = "md2" then
      ChainInvalidError.weakSignature leaf
    else if result_code = CssmCode.hostnameMismatch then
      ChainInvalidError.hostname leaf
    else if result_code = CssmCode.certExpired ∨ result_code = CssmCode.certNotYetValid then
      ChainInvalidError.expiredNotYetValid leaf
    else if leaf.self_signed = false ∧ result_code = CssmCode.notTrusted then
      ChainInvalidError.noIssuer leaf
    else if leaf.self_signed then
      ChainInvalidError.selfSigned leaf
    else if clientAuth then
      ChainInvalidError.clientAuth
    else
      ChainInvalidError.verification (some leaf)

/-- The configuration errors `TLSSession.__init__` can raise. -/
inductive ConfigError
  | typeError
  | valueError
deriving DecidableEq

/-- The `protocol` argument to `TLSSession.__init__` after Python-level
type dispatch: `None`, a single unicode string, or a set of strings
(modelled as a list; only membership matters for the validation). -/
inductive ProtocolArg
  | noneArg
  | strArg (s : String)
  | setArg (ps : List String)

/-- The four protocol versions `TLSSession.__init__` accepts
(line 293). -/
def supportedProtocols : List String :=
  ["SSLv3", "TLSv1", "TLSv1.1", "TLSv1.2"]

/-- Lines 293-303 of `TLSSession.__init__`: compute
`protocol - set(['SSLv3', 'TLSv1', 'TLSv1.1', 'TLSv1.2'])` and raise
`ValueError` exactly when that difference is non-empty; otherwise the
protocol set is stored. -/
def checkProtocols (ps : List String) : Except ConfigError (List String) :=
  let unsupported := ps.filter (fun p => !(supportedProtocols.contains p))
  if unsupported ≠ [] then Except.error ConfigError.valueError
  else Except.ok ps

/-- Lines 279-303 of `TLSSession.__init__`: normalize the `protocol`
argument (`None` becomes the default set, a string becomes a singleton)
and validate it with `checkProtocols`. -/
def validateProtocols : ProtocolArg → Except ConfigError (List String)
  | ProtocolArg.noneArg => checkProtocols ["TLSv1", "TLSv1.1", "TLSv1.2"]
  | ProtocolArg.strArg s => checkProtocols [s]
  | ProtocolArg.setArg ps => checkProtocols ps

/-- Whether an `Except` value is a success. -/
def exceptOk {ε α : Type} : Except ε α → Bool
  | Except.ok _ => true
  | Except.error _ => false

/-- The state of a `TLSSocket` visible to the buffered channel and
teardown methods.  `session_open` models `_session_context is not None`,
`socket_present` models `_socket is not None`, `in_socket_refs` whether
`_connection_id` is a key of the process-wide `_socket_refs` registry,
`decrypted_bytes` the plaintext queue, `socket_ready` whether a zero
timeout `select.select` on the raw socket reports it readable, and
`engine_data` / `engine_status` the bytes and status the next `SSLRead`
call would produce. -/
structure TLSState where
  session_open : Bool
  socket_present : Bool
  in_socket_refs : Bool
  local_closed : Bool
  decrypted_bytes : List Nat
  socket_ready : Bool
  engine_data : List Nat
  engine_status : SecStatus
deriving DecidableEq

/-- `TLSSocket._raise_closed` (lines 1133-1143): the message of the
`TLSError` raised for I/O on a closed socket. -/
def raiseClosedMsg (s : TLSState) : String :=
  if s.local_closed then "The connection was already closed"
  else "The remote end closed the connection"

/-- `TLSSocket.select_read` (lines 862-880): buffered decrypted data
always counts as readable; otherwise the raw socket is polled with the
given timeout. -/
def selectRead (s : TLSState) (timeout : Option Nat) : Bool :=
  if s.decrypted_bytes.length > 0 then true
  else
    match timeout with
    | _ => s.socket_ready

/-- `Security.SSLRead` as the module observes it: up to `to_read` bytes of
decrypted data plus a status, consuming the engine's stream. -/
def sslRead (s : TLSState) (to_read : Nat) : List Nat × SecStatus × TLSState :=
  (s.engine_data.take to_read, s.engine_status,
    { s with engine_data := s.engine_data.drop to_read })

deriving instance DecidableEq for Except

/-- Result of a `TLSSocket.read` call: the returned bytes or the message
of the raised error, the successor state, and whether `SSLRead` was
invoked. -/
structure ReadOutcome where
  result : Except String (List Nat)
  state : TLSState
  engine_called : Bool
deriving DecidableEq

/-- `TLSSocket.read` (lines 790-860): serve entirely from the buffer when
it holds enough; with a non-empty but insufficient buffer, return just the
buffer when `select_read(0)` is false; otherwise call `SSLRead` for the
deficit, treating `errSSLWouldBlock` and `errSSLClosedGraceful` as
non-fatal.  A closed session first drains any buffered data, then raises
via `_raise_closed`. -/
def read (s : TLSState) (max_length : Nat) : ReadOutcome :=
  if s.session_open = false then
    if s.decrypted_bytes ≠ [] then
      ⟨Except.ok s.decrypted_bytes, { s with decrypted_bytes := [] }, false⟩
    else
      ⟨Except.error (raiseClosedMsg s), s, false⟩
  else
    let buffered := s.decrypted_bytes.length
    if max_length ≤ buffered then
      ⟨Except.ok (s.decrypted_bytes.take max_length),
        { s with decrypted_bytes := s.decrypted_bytes.drop max_length }, false⟩
    else if 0 < buffered ∧ selectRead s (some 0) = false then
      ⟨Except.ok s.decrypted_bytes, { s with decrypted_bytes := [] }, false⟩
    else
      let to_read := max_length - buffered
      let r := sslRead s to_read
      let got := r.1
      let status := r.2.1
      let s2 := r.2.2
      if status ≠ SecStatus.success ∧ status ≠ SecStatus.wouldBlock ∧
          status ≠ SecStatus.closedGraceful then
        ⟨Except.error "TLS read error", s2, true⟩
      else
        let output := s.decrypted_bytes ++ got
        ⟨Except.ok (output.take max_length),
          { s2 with decrypted_bytes := output.drop max_length }, true⟩

/-- `TLSSocket.shutdown` (lines 1035-1060): a no-op when the session
context is already gone; otherwise the engine context is closed and
released, the session context cleared and `_local_closed` set (the
best-effort raw-socket shutdown does not change the modelled state). -/
def shutdown (s : TLSState) : TLSState :=
  if s.session_open = false then s
  else { s with session_open := false, local_closed := true }

/-- `TLSSocket.close` (lines 1062-1079): run `shutdown`, then close and
drop the raw socket and delete the `_socket_refs` registry entry when
present. -/
def close (s : TLSState) : TLSState :=
  let s1 := shutdown s
  let s2 := if s1.socket_present then { s1 with socket_present := false } else s1
  { s2 with in_socket_refs := false }

/-- Whether `needle` is an initial segment of `hay` (element-wise
comparison, as Python's slice comparison performs). -/
def prefOf {α : Type} [DecidableEq α] : List α → List α → Bool
  | [], _ => true
  | _ :: _, [] => false
  | a :: xs, b :: ys => if a = b then prefOf xs ys else false

/-- The index of the first occurrence of `needle` in `hay`, or `none` —
the semantics of Python's `bytes.find` (with `-1` mapped to `none`).  An
empty needle occurs at index 0. -/
def findSub {α : Type} [DecidableEq α] (needle : List α) : List α → Option Nat
  | [] => if needle = [] then some 0 else none
  | b :: rest =>
    if prefOf needle (b :: rest) then some 0
    else (findSub needle rest).map (fun i => i + 1)

/-- A `read_until` marker (line 895): either a literal byte string or a
compiled pattern object.  The source consumes a pattern only through
`marker.search(chunk)` followed by `match.end()` (lines 917-922), so a
compiled pattern is modelled by that observable: the end offset of the
first match the engine finds in the searched chunk, or `none` when the
chunk has no match. -/
inductive Marker
  | lit (bs : List Nat)
  | pat (searchEnd : List Nat → Option Nat)

/-- The end offset, inside one chunk, of the match the `read_until` loop
body finds there: `chunk.find(marker) + len(marker)` for a literal
(lines 923-928), `marker.search(chunk).end()` for a compiled pattern
(lines 917-922); `none` when the chunk does not match. -/
def markerEnd : Marker → List Nat → Option Nat
  | Marker.lit bs, chunk => (findSub bs chunk).map (fun m => m + bs.length)
  | Marker.pat searchEnd, chunk => searchEnd chunk

/-- One iteration of the `read_until` search (lines 917-928): if the
marker matches the newly read `chunk`, the end offset of the match inside
the whole accumulated output (`offset + match.end()` resp.
`offset + match + len(marker)`, where `offset = len(output) - len(chunk)`
names the data accumulated before this chunk). -/
def readUntilStep (marker : Marker) (output chunk : List Nat) : Option Nat :=
  (markerEnd marker chunk).map (fun e => output.length + e)

/-- The `read_until` accumulation loop (lines 907-928) over the sequence
of chunks the reads deliver: accumulate chunks into `output` until one
matches the marker, returning the match end offset and the accumulated
output; `none` when the chunk sequence is exhausted without a match. -/
def readUntilChunks (marker : Marker) :
    List Nat → List (List Nat) → Option (Nat × List Nat)
  | _, [] => none
  | output, c :: rest =>
    match readUntilStep marker output c with
    | some e => some (e, output ++ c)
    | none => readUntilChunks marker (output ++ c) rest

/-- `TLSSocket.read_until` (lines 882-931): the first loop iteration
consumes the buffered decrypted bytes when non-empty, later ones the
successive results of `self.read` (the `chunks` list); on a match the
returned data is `output[0:end]` and `output[end:]` is pushed back to
the front of the (then empty) decrypted buffer.  Returns
`(returned bytes, new decrypted buffer)`. -/
def read_until (marker : Marker) (buffered : List Nat)
    (chunks : List (List Nat)) : Option (List Nat × List Nat) :=
  let seq := if buffered = [] then chunks else buffered :: chunks
  (readUntilChunks marker [] seq).map (fun p => (p.2.take p.1, p.2.drop p.1))

/-- Whether `needle` occurs anywhere in `hay`. -/
def containsSub {α : Type} [DecidableEq α] (needle hay : List α) : Bool :=
  (findSub needle hay).isSome

/-- Occurrences of `"DES"` starting at index 1 or later of the name:
scans every adjacent position and requires the preceding character to
differ from `'3'` — the `(?<!3)DES` part of the blacklist pattern for
non-initial positions. -/
def desScan : List Char → Bool
  | [] => false
  | c :: rest =>
    (if c = '3' then false else prefOf ['D', 'E', 'S'] rest) || desScan rest

/-- The `(?<!3)DES` alternative of `_cipher_blacklist_regex`: the name
contains `"DES"` at a position not immediately preceded by `'3'`. -/
def desNotAfter3 (name : List Char) : Bool :=
  prefOf ['D', 'E', 'S'] name || desScan name

/-- `_cipher_blacklist_regex.search(name) is not None` (line 84): the
pattern is an alternation of fixed substrings plus `(?<!3)DES`. -/
def cipherBlacklisted (name : List Char) : Bool :=
  containsSub "anon".toList name ||
  containsSub "PSK".toList name ||
  containsSub "SEED".toList name ||
  containsSub "RC4".toList name ||
  containsSub "MD5".toList name ||
  containsSub "NULL".toList name ||
  containsSub "CAMELLIA".toList name ||
  containsSub "ARIA".toList name ||
  containsSub "SRP".toList name ||
  containsSub "KRB5".toList name ||
  containsSub "EXPORT".toList name ||
  desNotAfter3 name ||
  containsSub "IDEA".toList name

/-- The cipher-suite filter of `TLSSocket._handshake` (lines 587-593):
walk the engine-reported suites in order, keeping each one whose
canonical name (`CIPHER_SUITE_MAP` lookup, abstracted as `name`) does not
match the blacklist pattern.  The result is what
`SSLSetEnabledCiphers` installs. -/
def goodCiphers (name : Nat → String) (suites : List Nat) : List Nat :=
  suites.foldl
    (fun acc c => if cipherBlacklisted (name c).toList then acc else acc ++ [c])
    []

/-- The part of the handshake-completion state the terminal-status
classifier touches: the `_done_handshake` flag, the server-hello capture,
and the bytes `_read_remaining(self._socket)` would drain. -/
structure TermState where
  done_handshake : Bool
  server_hello : List Nat
  socket_remaining : List Nat
deriving DecidableEq

/-- The error raised by the terminal-status classifier, one constructor
per `raise_*` helper on lines 718-740; `none` from the classifier means
no branch fired. -/
inductive TermOutcome
  | clientAuth
  | handshakeFail
  | dhParams
  | protocolError (capture : List Nat)
  | disconnection
deriving DecidableEq

/-- Lines 718-740 of `TLSSocket._handshake`, the terminal-status checks
after the chain-invalid family: peer handshake failure, weak ephemeral DH
key, the legacy (`osx_version_info < (10, 10)`) DH-length probe of the
capture, record-overflow/protocol errors (which drain the remaining
socket bytes into the capture), and graceful/abrupt closes (which drain
only when `_done_handshake` is still unset, then test
`detect_other_protocol`).  `dca`, `dco` and `dhl` abstract
`detect_client_auth_request`, `detect_other_protocol` and
`get_dh_params_length`. -/
def classifyTerminal (dca dco : List Nat → Bool) (dhl : List Nat → Option Nat)
    (legacyOS : Bool) (s : TermState) (result : SecStatus) :
    TermState × Option TermOutcome :=
  if result = SecStatus.peerHandshakeFail then
    (s, some (if dca s.server_hello then TermOutcome.clientAuth
              else TermOutcome.handshakeFail))
  else if result = SecStatus.weakPeerEphemeralDHKey then
    (s, some TermOutcome.dhParams)
  else if legacyOS && (match dhl s.server_hello with
      | some l => decide (l < 1024)
      | none => false) then
    (s, some TermOutcome.dhParams)
  else if result = SecStatus.recordOverflow ∨ result = SecStatus.protocolErr then
    let s2 := { s with server_hello := s.server_hello ++ s.socket_remaining,
                       socket_remaining := [] }
    (s2, some (TermOutcome.protocolError s2.server_hello))
  else if result = SecStatus.closedNoNotify ∨ result = SecStatus.closedAbort then
    let s2 := if s.done_handshake = false then
        { s with server_hello := s.server_hello ++ s.socket_remaining,
                 socket_remaining := [] }
      else s
    if dco s2.server_hello then (s2, some (TermOutcome.protocolError s2.server_hello))
    else (s2, some TermOutcome.disconnection)
  else
    (s, none)

/-- The terminal classification as `_handshake` actually invokes it:
line 651 sets `self._done_handshake = True` unconditionally before any of
the checks of lines 718-740 run. -/
def handshakeClassify (dca dco : List Nat → Bool) (dhl : List Nat → Option Nat)
    (legacyOS : Bool) (server_hello socket_remaining : List Nat)
    (result : SecStatus) : TermState × Option TermOutcome :=
  classifyTerminal dca dco dhl legacyOS
    ⟨true, server_hello, socket_remaining⟩ result

/-! ### Helper lemmas -/

theorem filter_not_nil_iff_all {α : Type} (c : α → Bool) (l : List α) :
    (l.filter (fun x => !(c x)) = []) ↔ l.all c = true := by
  induction l with
  | nil => simp
  | cons a t ih => cases h : c a <;> simp [List.filter_cons, h, ih]

theorem goodCiphers_foldl (name : Nat → String) (acc suites : List Nat) :
    suites.foldl
        (fun a c => if cipherBlacklisted (name c).toList then a else a ++ [c]) acc
      = acc ++ suites.filter (fun c => !cipherBlacklisted (name c).toList) := by
  induction suites generalizing acc with
  | nil => simp
  | cons x t ih =>
    simp only [String.toList] at ih ⊢
    cases h : cipherBlacklisted (name x).data <;>
      simp [List.foldl_cons, h, ih, List.filter_cons]

/-! ### Claim theorems -/

/-- C10: the push callback is not total: when `socket.send` raises a
socket error with `errno == EAGAIN`, execution falls through to the
comparison `sent != data_length` with the local `sent` never assigned, so
`_write_callback` fails with an undefined local variable (modelled as
`none`) instead of returning an integer engine status. -/
theorem writeCallback_eagain_unbound (sp dn : Bool) (ch data : List Nat) :
    writeCallback sp dn ch data (Except.error SockErr.eagain) = none := by
  simp [writeCallback]

/-- C8: the installed cipher suites are exactly the engine-reported ones
whose canonical name does not match the blacklist pattern (the filter is
a pure function of the reported list); in particular a triple-DES suite
name is retained while a single-DES suite name is excluded. -/
theorem goodCiphers_eq_filter (name : Nat → String) (suites : List Nat) :
    goodCiphers name suites
        = suites.filter (fun c => !cipherBlacklisted (name c).toList) ∧
    cipherBlacklisted "TLS_RSA_WITH_3DES_EDE_CBC_SHA".toList = false ∧
    cipherBlacklisted "TLS_RSA_WITH_DES_CBC_SHA".toList = true := by
  refine ⟨?_, by decide, by decide⟩
  simpa using goodCiphers_foldl name [] suites

/-- C3 (counterexample): constructing a session with the empty protocol
set does not raise; validation succeeds and stores the empty set, contrary
to the claim that a configuration error is raised. -/
theorem empty_protocol_set_accepted :
    validateProtocols (ProtocolArg.setArg []) = Except.ok [] ∧
    exceptOk (validateProtocols (ProtocolArg.setArg [])) = true := by decide

/-- C3 (amended): session construction accepts a protocol set exactly when
every member is one of the four supported version tags — a set containing
an unknown tag is rejected with `ValueError`, while any subset of the four
tags, including the empty set, is accepted. -/
theorem validateProtocols_ok_iff_all_supported (ps : List String) :
    exceptOk (validateProtocols (ProtocolArg.setArg ps))
      = ps.all (fun p => supportedProtocols.contains p) := by
  show exceptOk
      (if ps.filter (fun p => !(supportedProtocols.contains p)) ≠ [] then
        Except.error ConfigError.valueError
      else Except.ok ps)
    = ps.all (fun p => supportedProtocols.contains p)
  by_cases h : ps.filter (fun p => !(supportedProtocols.contains p)) = []
  · rw [if_neg (fun hc => hc h)]
    exact ((filter_not_nil_iff_all _ ps).mp h).symm
  · rw [if_pos h]
    have hall : ps.all (fun p => supportedProtocols.contains p) = false := by
      cases hc : ps.all (fun p => supportedProtocols.contains p)
      · rfl
      · exact absurd ((filter_not_nil_iff_all _ ps).mpr hc) h
    exact hall.symm

/-- C1 (counterexample): with a SHA-256 leaf, a hostname-mismatch CSSM
code and a captured server hello that requests a client certificate, the
classifier raises the hostname error, not the client-auth-required error
— the client-auth check does not override branches (b)-(e). -/
theorem classify_hostname_over_clientAuth :
    classifyChainInvalid [⟨"sha256", false⟩] CssmCode.hostnameMismatch true
        = ChainInvalidError.hostname ⟨"sha256", false⟩ ∧
    ChainInvalidError.hostname ⟨"sha256", false⟩ ≠ ChainInvalidError.clientAuth := by
  exact ⟨by decide, by decide⟩

/-- C1 (amended): the classifier raises exactly one error with this
precedence: a weak-signature error whenever the captured leaf uses MD5 or
MD2; then hostname-mismatch, expiration, missing-issuer and self-signed in
that order; the client-auth-required error is raised only when none of
those applied and the server hello requests a client certificate; when
nothing applies the generic verification error carries the leaf. -/
theorem classifyChainInvalid_precedence (leaf : Cert) (rest : List Cert)
    (code : CssmCode) (auth : Bool) :
    ((leaf.hash_algo = "md5" ∨ leaf.hash_algo = "md2") →
      classifyChainInvalid (leaf :: rest) code auth
        = ChainInvalidError.weakSignature leaf) ∧
    (classifyChainInvalid (leaf :: rest) code auth = ChainInvalidError.clientAuth ↔
      auth = true ∧ ¬(leaf.hash_algo = "md5" ∨ leaf.hash_algo = "md2") ∧
      code ≠ CssmCode.hostnameMismatch ∧ code ≠ CssmCode.certExpired ∧
      code ≠ CssmCode.certNotYetValid ∧ code ≠ CssmCode.notTrusted ∧
      leaf.self_signed = false) ∧
    ((¬(leaf.hash_algo = "md5" ∨ leaf.hash_algo = "md2")) → auth = false →
      code ≠ CssmCode.hostnameMismatch → code ≠ CssmCode.certExpired →
      code ≠ CssmCode.certNotYetValid → code ≠ CssmCode.notTrusted →
      leaf.self_signed = false →
      classifyChainInvalid (leaf :: rest) code auth
        = ChainInvalidError.verification (some leaf)) := by
  obtain ⟨ha, ss⟩ := leaf
  refine ⟨?_, ?_, ?_⟩
  · intro hw
    simp only [classifyChainInvalid]
    rw [if_pos hw]
  · by_cases hw : ha = "md5" ∨ ha = "md2"
    · simp [classifyChainInvalid, hw]
    · cases code <;> cases ss <;> cases auth <;> simp [classifyChainInvalid, hw]
  · intro hw hauth h1 h2 h3 h4 hss
    cases code <;> simp_all [classifyChainInvalid]

/-- C1 (witness): a leaf signed with MD5 is classified as a
weak-signature error even when a client certificate was requested. -/
theorem classifyChainInvalid_precedence_witness :
    classifyChainInvalid [⟨"md5", false⟩] CssmCode.otherCode true
      = ChainInvalidError.weakSignature ⟨"md5", false⟩ :=
  (classifyChainInvalid_precedence ⟨"md5", false⟩ [] CssmCode.otherCode true).1
    (Or.inl rfl)

theorem read_from_buffer (s : TLSState) (n : Nat) (hopen : s.session_open = true)
    (hge : n ≤ s.decrypted_bytes.length) :
    read s n = ⟨Except.ok (s.decrypted_bytes.take n),
      { s with decrypted_bytes := s.decrypted_bytes.drop n }, false⟩ := by
  unfold read
  rw [if_neg (by simp [hopen])]
  show (if n ≤ s.decrypted_bytes.length then _ else _) = _
  rw [if_pos hge]

/-- C9: a `read(n)` on an open channel whose decrypted buffer holds at
least `n` bytes returns exactly the first `n` buffered bytes, retains the
remainder in order, and does not invoke the engine's `SSLRead` (hence
never blocks). -/
theorem read_buffered_exact (s : TLSState) (n : Nat)
    (hopen : s.session_open = true) (hge : n ≤ s.decrypted_bytes.length) :
    (read s n).result = Except.ok (s.decrypted_bytes.take n) ∧
    (read s n).state.decrypted_bytes = s.decrypted_bytes.drop n ∧
    (read s n).engine_called = false := by
  rw [read_from_buffer s n hopen hge]
  exact ⟨rfl, rfl, rfl⟩

/-- C9 (witness): with three buffered bytes, `read(2)` returns the first
two, keeps the third, and never touches the engine. -/
theorem read_buffered_exact_witness :
    (read ⟨true, true, true, false, [1, 2, 3], true, [], SecStatus.success⟩ 2).result
        = Except.ok [1, 2] ∧
    (read ⟨true, true, true, false, [1, 2, 3], true, [], SecStatus.success⟩
        2).state.decrypted_bytes = [3] ∧
    (read ⟨true, true, true, false, [1, 2, 3], true, [], SecStatus.success⟩
        2).engine_called = false := by
  obtain ⟨h1, h2, h3⟩ := read_buffered_exact
    ⟨true, true, true, false, [1, 2, 3], true, [], SecStatus.success⟩ 2 rfl
    (by decide)
  exact ⟨h1, h2, h3⟩

/-- C2: with a non-empty but insufficient buffer on an open channel and
the transport reporting no data available, the readiness poll
`select_read(0)` nevertheless reports ready (buffered data short-circuits
it), so the buffered-return guard in `read` never fires and `SSLRead` is
invoked — contradicting the claim that the poll reports not-ready and the
decrypt primitive is not invoked. -/
theorem read_partial_buffer_invokes_engine (s : TLSState) (n : Nat)
    (hopen : s.session_open = true) (hpos : 0 < s.decrypted_bytes.length)
    (hlt : s.decrypted_bytes.length < n) (_hnr : s.socket_ready = false) :
    selectRead s (some 0) = true ∧ (read s n).engine_called = true := by
  have hsel : selectRead s (some 0) = true := by
    simp [selectRead, hpos]
  refine ⟨hsel, ?_⟩
  have hnle : ¬ (n ≤ s.decrypted_bytes.length) := by omega
  simp only [read, hopen, hnle, hsel]
  norm_num
  split <;> rfl

/-- C2 (witness): one buffered byte, `read(2)`, transport not ready: the
poll reports ready and the engine decrypt is invoked. -/
theorem read_partial_buffer_invokes_engine_witness :
    selectRead ⟨true, true, true, false, [7], false, [], SecStatus.wouldBlock⟩
        (some 0) = true ∧
    (read ⟨true, true, true, false, [7], false, [], SecStatus.wouldBlock⟩
        2).engine_called = true :=
  read_partial_buffer_invokes_engine
    ⟨true, true, true, false, [7], false, [], SecStatus.wouldBlock⟩ 2 rfl
    (by decide) (by decide) rfl

/-- C4 (counterexample): after a local `close()` with one decrypted byte
still buffered, the next `read` does not raise — it returns the buffered
byte. -/
theorem read_after_close_returns_buffered :
    (read (close ⟨true, true, true, false, [1], false, [], SecStatus.success⟩)
        5).result = Except.ok [1] := by decide

/-- C4 (amended): `close()` is idempotent — a second call is a no-op on
the socket and registry state — and once the decrypted buffer is empty,
every read after a local `close()` raises the closed-connection error
naming local closure (buffered bytes, when present, are returned first). -/
theorem close_idempotent_read_local (s : TLSState) (n : Nat)
    (hopen : s.session_open = true) (hbuf : s.decrypted_bytes = []) :
    close (close s) = close s ∧
    (read (close s) n).result
      = Except.error "The connection was already closed" := by
  obtain ⟨o, sp, ir, lc, db, sr, ed, es⟩ := s
  simp only at hopen hbuf
  subst hopen
  subst hbuf
  constructor
  · cases sp <;> rfl
  · cases sp <;> rfl

/-- C4 (witness): concrete instance of idempotent close and the
local-closure error on a subsequent read. -/
theorem close_idempotent_read_local_witness :
    close (close ⟨true, true, true, false, [], true, [], SecStatus.success⟩)
        = close ⟨true, true, true, false, [], true, [], SecStatus.success⟩ ∧
    (read (close ⟨true, true, true, false, [], true, [], SecStatus.success⟩)
        4).result = Except.error "The connection was already closed" :=
  close_idempotent_read_local
    ⟨true, true, true, false, [], true, [], SecStatus.success⟩ 4 rfl rfl

theorem finishRead_done_server_hello (sp : Bool) (sh d : List Nat) (n : Nat) :
    (finishRead sp true sh d n).server_hello = sh := by
  unfold finishRead
  split
  · rename_i h
    simp at h
  · split <;> rfl

theorem readCallback_done_server_hello (sp bl : Bool) (sh : List Nat)
    (steps : List RecvStep) (n : Nat) :
    (readCallback sp true sh steps bl n).server_hello = sh := by
  rcases hr : recvLoop bl n [] steps with ⟨d, e, ec⟩
  unfold readCallback
  rw [hr]
  cases ec
  · cases e with
    | none => exact finishRead_done_server_hello sp sh d n
    | some a =>
      cases a
      · exact finishRead_done_server_hello sp sh d n
      · rfl
      · rfl
  · rfl

theorem writeCallback_done_client_hello (sp : Bool) (ch data : List Nat)
    (o : Except SockErr Nat) (r : WriteCbResult)
    (h : writeCallback sp true ch data o = some r) : r.client_hello = ch := by
  unfold writeCallback at h
  cases o with
  | error e =>
    cases e
    · simp at h
    · simp at h
      rw [← h]
    · simp at h
      rw [← h]
  | ok sent =>
    by_cases hs : sent = data.length
    · simp [hs] at h
      rw [← h]
    · simp [hs] at h
      rw [← h]

theorem classifyTerminal_done_state (dca dco : List Nat → Bool)
    (dhl : List Nat → Option Nat) (legacy : Bool) (s : TermState)
    (res : SecStatus) (hdone : s.done_handshake = true)
    (h1 : res ≠ SecStatus.recordOverflow) (h2 : res ≠ SecStatus.protocolErr) :
    (classifyTerminal dca dco dhl legacy s res).1 = s := by
  unfold classifyTerminal
  split
  · rfl
  · split
    · rfl
    · split
      · rfl
      · split
        · rename_i hro
          rcases hro with h | h
          · exact absurd h h1
          · exact absurd h h2
        · split
          · simp only [hdone]
            split
            · rename_i hc
              exact absurd hc (by simp)
            · split <;> rfl
          · rfl

/-- C5 (counterexample): with the handshake-done flag set, classifying the
protocol-error terminal status appends the drained socket bytes to the
server-hello capture — the capture grows after the flag is set. -/
theorem classify_grows_capture_after_done :
    (classifyTerminal (fun _ => false) (fun _ => false) (fun _ => none) false
        ⟨true, [], [9]⟩ SecStatus.protocolErr).1.server_hello = [9] ∧
    ([9] : List Nat) ≠ [] := ⟨rfl, by decide⟩

/-- C5 (amended): once the handshake-done flag is set, the I/O callbacks
never append to either capture buffer, and the terminal-status
classification leaves the server-hello capture unchanged except on the
record-overflow / protocol-error path, which still appends the drained
socket bytes. -/
theorem captures_frozen_after_done (sp bl legacy : Bool)
    (sh ch data rem : List Nat) (steps : List RecvStep)
    (n : Nat) (o : Except SockErr Nat) (r : WriteCbResult)
    (dca dco : List Nat → Bool) (dhl : List Nat → Option Nat) (res : SecStatus)
    (h1 : res ≠ SecStatus.recordOverflow) (h2 : res ≠ SecStatus.protocolErr) :
    (readCallback sp true sh steps bl n).server_hello = sh ∧
    (writeCallback sp true ch data o = some r → r.client_hello = ch) ∧
    (classifyTerminal dca dco dhl legacy ⟨true, sh, rem⟩ res).1.server_hello
      = sh := by
  refine ⟨readCallback_done_server_hello sp bl sh steps n, ?_, ?_⟩
  · exact writeCallback_done_client_hello sp ch data o r
  · rw [classifyTerminal_done_state dca dco dhl legacy ⟨true, sh, rem⟩ res rfl h1 h2]

/-- C5 (witness): concrete instances — a read callback after done leaves
the server-hello capture unchanged, a full send leaves the client-hello
capture unchanged, and classifying a success status leaves the capture
unchanged. -/
theorem captures_frozen_after_done_witness :
    (readCallback true true [5] [] true 3).server_hello = [5] ∧
    WriteCbResult.client_hello ⟨SecStatus.success, 1, [6]⟩ = [6] ∧
    (classifyTerminal (fun _ => false) (fun _ => false) (fun _ => none) false
        ⟨true, [5], [9]⟩ SecStatus.success).1.server_hello = [5] := by
  have h := captures_frozen_after_done true true false [5] [6] [7] [9] [] 3
    (Except.ok 1) ⟨SecStatus.success, 1, [6]⟩ (fun _ => false) (fun _ => false)
    (fun _ => none) SecStatus.success (by decide) (by decide)
  exact ⟨h.1, h.2.1 (by decide), h.2.2⟩

/-- C6: on a graceful-close or abrupt-close terminal status the remaining
socket bytes are never drained into the capture — line 651 sets the
done-handshake flag before classification, so the drain guard on line 736
is always false — and the protocol-signature test and disconnection error
therefore run on the capture as it stood, contradicting the claim that
the bytes are drained first. -/
theorem closed_status_skips_drain (dca dco : List Nat → Bool)
    (dhl : List Nat → Option Nat) (sh rem : List Nat) :
    (handshakeClassify dca dco dhl false sh rem
        SecStatus.closedNoNotify).1.server_hello = sh ∧
    (handshakeClassify dca dco dhl false sh rem
        SecStatus.closedAbort).1.server_hello = sh ∧
    (handshakeClassify dca dco dhl false sh rem SecStatus.closedNoNotify).2
      = some (if dco sh then TermOutcome.protocolError sh
              else TermOutcome.disconnection) := by
  refine ⟨?_, ?_, ?_⟩
  · unfold handshakeClassify
    rw [classifyTerminal_done_state dca dco dhl false ⟨true, sh, rem⟩
      SecStatus.closedNoNotify rfl (by decide) (by decide)]
  · unfold handshakeClassify
    rw [classifyTerminal_done_state dca dco dhl false ⟨true, sh, rem⟩
      SecStatus.closedAbort rfl (by decide) (by decide)]
  · show (if dco sh = true
        then ((⟨true, sh, rem⟩ : TermState),
          some (TermOutcome.protocolError sh))
        else (⟨true, sh, rem⟩, some TermOutcome.disconnection)).2
      = some (if dco sh then TermOutcome.protocolError sh
              else TermOutcome.disconnection)
    cases h : dco sh <;> simp [h]

theorem prefOf_exists {α : Type} [DecidableEq α] :
    ∀ (xs h : List α), prefOf xs h = true → ∃ t, h = xs ++ t
  | [], h, _ => ⟨h, rfl⟩
  | _ :: _, [], hp => by simp [prefOf] at hp
  | a :: xs, b :: h, hp => by
    unfold prefOf at hp
    split at hp
    · rename_i heq
      obtain ⟨t, ht⟩ := prefOf_exists xs h hp
      exact ⟨t, by rw [heq, ht]; rfl⟩
    · exact absurd hp (by simp)

theorem findSub_pref {α : Type} [DecidableEq α] :
    ∀ (needle hay : List α) (i : Nat), findSub needle hay = some i →
      i ≤ hay.length ∧ prefOf needle (hay.drop i) = true
  | needle, [], i, h => by
    unfold findSub at h
    split at h
    · rename_i hn
      cases h
      subst hn
      exact ⟨Nat.le_refl 0, rfl⟩
    · exact absurd h (by simp)
  | needle, b :: rest, i, h => by
    unfold findSub at h
    split at h
    · rename_i hp
      cases h
      exact ⟨Nat.zero_le _, hp⟩
    · rcases Option.map_eq_some'.mp h with ⟨j, hj, hji⟩
      obtain ⟨hle, hpref⟩ := findSub_pref needle rest j hj
      subst hji
      refine ⟨by simpa using Nat.succ_le_succ hle, ?_⟩
      rw [List.drop_succ_cons]
      exact hpref

theorem findSub_min {α : Type} [DecidableEq α] :
    ∀ (needle hay : List α) (i : Nat), findSub needle hay = some i →
      ∀ j, prefOf needle (hay.drop j) = true → i ≤ j
  | needle, [], i, h, j, _ => by
    unfold findSub at h
    split at h
    · cases h
      exact Nat.zero_le j
    · exact absurd h (by simp)
  | needle, b :: rest, i, h, j, hp => by
    unfold findSub at h
    split at h
    · cases h
      exact Nat.zero_le j
    · rename_i hnp
      rcases Option.map_eq_some'.mp h with ⟨k, hk, hki⟩
      subst hki
      cases j with
      | zero =>
        rw [List.drop_zero] at hp
        exact absurd hp hnp
      | succ j2 =>
        rw [List.drop_succ_cons] at hp
        exact Nat.succ_le_succ (findSub_min needle rest k hk j2 hp)

theorem findSub_none {α : Type} [DecidableEq α] :
    ∀ (needle hay : List α), findSub needle hay = none →
      ∀ j, prefOf needle (hay.drop j) = false
  | needle, [], h, j => by
    unfold findSub at h
    split at h
    · exact absurd h (by simp)
    · rename_i hn
      rw [List.drop_nil]
      cases needle with
      | nil => exact absurd rfl hn
      | cons a t => rfl
  | needle, b :: rest, h, j => by
    unfold findSub at h
    split at h
    · exact absurd h (by simp)
    · rename_i hnp
      have hrest : findSub needle rest = none := by
        cases hfs : findSub needle rest with
        | none => rfl
        | some k => rw [hfs] at h; simp at h
      cases j with
      | zero =>
        rw [List.drop_zero]
        cases hb : prefOf needle (b :: rest)
        · rfl
        · exact absurd hb hnp
      | succ j2 =>
        rw [List.drop_succ_cons]
        exact findSub_none needle rest hrest j2

theorem take_match_end (output c bs t : List Nat) (m : Nat)
    (ht : c.drop m = bs ++ t) :
    (output ++ c).take (output.length + (m + bs.length))
      = (output ++ c.take m) ++ bs := by
  have h1 : (output ++ c).take (output.length + (m + bs.length))
      = output ++ c.take (m + bs.length) := by
    rw [List.take_add, List.take_left, List.drop_left]
  have h2 : c.take (m + bs.length) = c.take m ++ bs := by
    rw [List.take_add, ht, List.take_left]
  rw [h1, h2, List.append_assoc]

theorem readUntilChunks_decomp (marker : Marker) :
    ∀ (seq : List (List Nat)) (output : List Nat) (e : Nat) (out : List Nat),
      readUntilChunks marker output seq = some (e, out) →
      ∃ (pre : List (List Nat)) (c : List Nat) (rest : List (List Nat))
        (ec : Nat),
        seq = pre ++ c :: rest ∧
        (∀ c2 ∈ pre, markerEnd marker c2 = none) ∧
        markerEnd marker c = some ec ∧
        out = output ++ (pre.flatten ++ c) ∧
        e = output.length + (pre.flatten.length + ec)
  | [], output, e, out, h => by simp [readUntilChunks] at h
  | c0 :: rest0, output, e, out, h => by
    unfold readUntilChunks at h
    split at h
    · rename_i e0 hstep
      cases h
      unfold readUntilStep at hstep
      rcases Option.map_eq_some'.mp hstep with ⟨ec, hec, hee⟩
      subst hee
      exact ⟨[], c0, rest0, ec, rfl, by simp, hec, by simp, by simp⟩
    · rename_i hstep
      have hnone : markerEnd marker c0 = none := by
        unfold readUntilStep at hstep
        cases hme : markerEnd marker c0 with
        | none => rfl
        | some x => rw [hme] at hstep; simp at hstep
      obtain ⟨pre, c, rest, ec, hseq, hpre, hend, hout, he⟩ :=
        readUntilChunks_decomp marker rest0 (output ++ c0) e out h
      refine ⟨c0 :: pre, c, rest, ec, ?_, ?_, hend, ?_, ?_⟩
      · rw [hseq]
        rfl
      · intro c2 hc2
        rcases List.mem_cons.mp hc2 with h2 | h2
        · rw [h2]
          exact hnone
        · exact hpre c2 h2
      · rw [hout]
        simp [List.append_assoc]
      · rw [he]
        simp [List.length_append]
        omega

/-- C7 (counterexample): with literal marker `[1,1]` delivered as the
chunks `[0,1]`, `[1,0]`, `[1,1]`, the first marker occurrence in the
delivered stream `[0,1,1,0,1,1]` ends at offset 3, but the per-chunk
search misses it (it spans a chunk boundary) and `read_until` returns
all six bytes instead of the first three. -/
theorem read_until_misses_boundary_match :
    read_until (Marker.lit [1, 1]) [] [[0, 1], [1, 0], [1, 1]]
        = some ([0, 1, 1, 0, 1, 1], []) ∧
    (findSub [1, 1] [0, 1, 1, 0, 1, 1]).map (fun m => m + 2) = some 3 ∧
    (some (([0, 1, 1, 0, 1, 1] : List Nat), ([] : List Nat))
        : Option (List Nat × List Nat))
      ≠ some (([0, 1, 1, 0, 1, 1].take 3, [0, 1, 1, 0, 1, 1].drop 3)) := by
  decide

/-- C7 (amended): whenever `read_until` returns — for a literal
byte-string marker or a compiled pattern (modelled by the end offset its
`search` method reports per chunk) — the delivered chunk sequence splits
as `pre ++ c :: rest` where no chunk of `pre` matches the marker and `c`
is the first chunk that does, with in-chunk match end `ec`; the returned
bytes are exactly the consumed stream cut at `pre.flatten.length + ec`
and the remainder of the consumed stream is pushed back as the new
decrypted buffer.  For a literal marker additionally: the result ends
with the marker, its length is exactly the cut offset, `ec` is the end
of the leftmost occurrence inside `c`, and no occurrence of the marker
exists anywhere in any earlier chunk — so the result ends exactly at the
end offset of the first marker occurrence lying entirely within a single
delivered chunk.  Finally the pushed-back bytes sit at the front of the
buffer, so a following `read` delivers them first without touching the
engine. -/
theorem read_until_amended (marker : Marker) (buffered ret left : List Nat)
    (chunks : List (List Nat))
    (h : read_until marker buffered chunks = some (ret, left)) :
    ∃ (pre : List (List Nat)) (c : List Nat) (rest : List (List Nat))
      (ec : Nat),
      (if buffered = [] then chunks else buffered :: chunks)
        = pre ++ c :: rest ∧
      (∀ c2 ∈ pre, markerEnd marker c2 = none) ∧
      markerEnd marker c = some ec ∧
      ret = (pre.flatten ++ c).take (pre.flatten.length + ec) ∧
      left = (pre.flatten ++ c).drop (pre.flatten.length + ec) ∧
      (∀ bs, marker = Marker.lit bs →
        (∃ p, p ++ bs = ret) ∧
        ret.length = pre.flatten.length + ec ∧
        (∀ i, prefOf bs (c.drop i) = true → ec ≤ i + bs.length) ∧
        (∀ c2 ∈ pre, ∀ i, prefOf bs (c2.drop i) = false)) ∧
      (∀ (s : TLSState) (n : Nat), s.session_open = true →
        s.decrypted_bytes = left → n ≤ left.length →
        (read s n).result = Except.ok (left.take n) ∧
        (read s n).engine_called = false) := by
  simp only [read_until] at h
  rcases hrc : readUntilChunks marker []
      (if buffered = [] then chunks else buffered :: chunks) with _ | ⟨e, out⟩
  · rw [hrc] at h
    simp at h
  · rw [hrc] at h
    simp only [Option.map_some'] at h
    rw [Option.some.injEq, Prod.mk.injEq] at h
    obtain ⟨h1, h2⟩ := h
    subst h1
    subst h2
    obtain ⟨pre, c, rest, ec, hseq, hpre, hend, hout, he⟩ :=
      readUntilChunks_decomp marker _ [] e out hrc
    rw [List.nil_append] at hout
    rw [List.length_nil, Nat.zero_add] at he
    subst hout
    subst he
    refine ⟨pre, c, rest, ec, hseq, hpre, hend, rfl, rfl, ?_, ?_⟩
    · rintro bs rfl
      unfold markerEnd at hend
      rcases Option.map_eq_some'.mp hend with ⟨m, hm, hme⟩
      obtain ⟨hmle, hpref⟩ := findSub_pref bs c m hm
      obtain ⟨t, ht⟩ := prefOf_exists bs (c.drop m) hpref
      have htake := take_match_end pre.flatten c bs t m ht
      refine ⟨⟨pre.flatten ++ c.take m, ?_⟩, ?_, ?_, ?_⟩
      · rw [← hme]
        exact htake.symm
      · rw [← hme, htake]
        simp [List.length_append, List.length_take, Nat.min_eq_left hmle]
      · intro i hpi
        have hmin := findSub_min bs c m hm i hpi
        omega
      · intro c2 hc2 i
        have hn := hpre c2 hc2
        simp only [markerEnd] at hn
        exact findSub_none bs c2 (Option.map_eq_none'.mp hn) i
    · intro s n hopen hdb hn
      have hr := read_from_buffer s n hopen (by rw [hdb]; exact hn)
      rw [hr, hdb]
      exact ⟨rfl, rfl⟩

/-- C7 (witness): a literal marker found in the buffered bytes — the
result ends with the marker and the byte past it is pushed back. -/
theorem read_until_amended_witness :
    read_until (Marker.lit [2]) [1, 2, 3] [] = some ([1, 2], [3]) ∧
    (∃ p, p ++ [2] = [1, 2]) := by
  obtain ⟨pre, c, rest, ec, hseq, hpre, hend, hret, hleft, hlit, hread⟩ :=
    read_until_amended (Marker.lit [2]) [1, 2, 3] [1, 2] [3] [] (by decide)
  exact ⟨by decide, (hlit [2] rfl).1⟩

end OscTLS
